import Mathlib

/-!
Shallow embedding of `src/src/index.ts` (the `PythagoreanCache` class of the
pythagorean-cache package) and proofs about it.

Modelling conventions:
* JavaScript optional numbers (`size?: number`, `interval?: number`) become
  `Option Nat`; JavaScript truthiness (`undefined` and `0` are falsy) is made
  explicit wherever the source branches on an option.
* The mutable object becomes a state record `PythagoreanCache T`; each method
  becomes a function from the state to a new state, paired with the list of
  `dump`-event batches the call emitted (in emission order) and with the
  method's return value where it has one.
* The `NodeJS.Timeout` handle becomes a Boolean `timerActive` recording
  whether a recurring timer is currently armed.
* The constructor's `throw new Error(...)` becomes `Except.error` with the
  thrown message.
-/

/-- Options of the cache (`PythagoreanCacheOpts` in the source): `size` dumps
the cache when the queue reaches that size, `interval` dumps the cache every
that many milliseconds. Both fields are optional numbers. -/
structure PythagoreanCacheOpts where
  size : Option Nat
  interval : Option Nat
deriving Repr, DecidableEq

/-- JavaScript truthiness of an optional number: `undefined` (here `none`) and
`0` are falsy, every other number is truthy. -/
def optTruthy (o : Option Nat) : Bool :=
  match o with
  | none => false
  | some n => n != 0

/-- The state of a `PythagoreanCache<T>` instance: the private `queue`, the
stored `opts`, and whether the recurring interval timer is armed. -/
structure PythagoreanCache (T : Type) where
  queue : List T
  opts : PythagoreanCacheOpts
  timerActive : Bool
deriving Repr, DecidableEq

/-- Source getter `length`: `return this.queue.length`. -/
def PythagoreanCache.length (c : PythagoreanCache T) : Nat :=
  c.queue.length

/-- Source method `checkLimit`:
`return this.opts.size ? this.length >= this.opts.size : false;`
(the scrutinee follows JavaScript truthiness, so a size of `0` takes the
`false` branch). -/
def PythagoreanCache.checkLimit (c : PythagoreanCache T) : Bool :=
  match c.opts.size with
  | some s => if s == 0 then false else decide (c.length ≥ s)
  | none => false

/-- The splice width `this.opts.size || this.length` used by `dump`: an absent
or zero size falls back to the queue length under JavaScript truthiness. -/
def PythagoreanCache.dumpCount (c : PythagoreanCache T) : Nat :=
  match c.opts.size with
  | some s => if s == 0 then c.length else s
  | none => c.length

/-- Source method `dump`, statement by statement: when the queue is non-empty,
`this.queue.splice(0, this.opts.size || this.length)` removes the first
`dumpCount` items from the queue and returns them, and only then
`this.emit('dump', items)` runs the observers.  The observer callback `obs`
here receives the emitted batch together with the queue as it stands at
emission time (i.e. after the splice has completed), and threads a value of
type `A`; this mirrors the order of the two statements in the source. -/
def PythagoreanCache.dumpWith (c : PythagoreanCache T)
    (obs : List T → List T → A → A) (a : A) : PythagoreanCache T × A :=
  if c.length > 0 then
    let items := c.queue.take c.dumpCount
    let c' : PythagoreanCache T := { c with queue := c.queue.drop c.dumpCount }
    (c', obs items c'.queue a)
  else
    (c, a)

/-- Source method `dump` with the ordinary event channel: the second component
collects the batches emitted as `dump` events, in emission order. -/
def PythagoreanCache.dump (c : PythagoreanCache T) :
    PythagoreanCache T × List (List T) :=
  c.dumpWith (fun items _ evs => evs ++ [items]) []

/-- Source method `push`: append the items to the queue, dump if `checkLimit`
holds, and return `this.length` read after those effects.  Result:
(new state, batches emitted during the call, returned length). -/
def PythagoreanCache.push (c : PythagoreanCache T) (items : List T) :
    PythagoreanCache T × List (List T) × Nat :=
  let c1 : PythagoreanCache T := { c with queue := c.queue ++ items }
  if c1.checkLimit then
    let r := c1.dump
    (r.1, r.2, r.1.length)
  else
    (c1, [], c1.length)

/-- Source method `setSize`: store the new size, then dump if `checkLimit` now
holds. -/
def PythagoreanCache.setSize (c : PythagoreanCache T) (newSize : Nat) :
    PythagoreanCache T × List (List T) :=
  let c1 : PythagoreanCache T := { c with opts := { c.opts with size := some newSize } }
  if c1.checkLimit then c1.dump else (c1, [])

/-- Source method `stopInterval`: `if (this.interval) clearInterval(this.interval)`
cancels the recurring timer when one is armed and does nothing otherwise; no
other field of the instance is touched. -/
def PythagoreanCache.stopInterval (c : PythagoreanCache T) : PythagoreanCache T :=
  { c with timerActive := false }

/-- Source method `startInterval`: stop any armed timer, then arm a recurring
timer when `this.opts.interval` is truthy. -/
def PythagoreanCache.startInterval (c : PythagoreanCache T) : PythagoreanCache T :=
  let c1 := c.stopInterval
  if optTruthy c1.opts.interval then { c1 with timerActive := true } else c1

/-- Source method `setInterval`: store the new interval and restart the
timer. -/
def PythagoreanCache.setIntervalMs (c : PythagoreanCache T) (newInterval : Nat) :
    PythagoreanCache T :=
  PythagoreanCache.startInterval { c with opts := { c.opts with interval := some newInterval } }

/-- The message of the error thrown by the constructor. -/
def configErrorMsg : String :=
  "You must specify either a size or interval (or both)"

/-- Source constructor: `if (!opts.size && !opts.interval) throw ...` — with
JavaScript truthiness, so a size or interval of `0` counts as unset — and
otherwise an instance with an empty queue, the given options, and the interval
timer started. -/
def PythagoreanCache.construct (T : Type) (opts : PythagoreanCacheOpts) :
    Except String (PythagoreanCache T) :=
  if !optTruthy opts.size && !optTruthy opts.interval then
    Except.error configErrorMsg
  else
    Except.ok (PythagoreanCache.startInterval
      { queue := [], opts := opts, timerActive := false })

/-- Push the items of `l` one at a time (one `push` call per item), collecting
every batch emitted along the way. -/
def PythagoreanCache.pushSeq (c : PythagoreanCache T) (l : List T) :
    PythagoreanCache T × List (List T) :=
  match l with
  | [] => (c, [])
  | x :: xs =>
    let r := c.push [x]
    let r' := r.1.pushSeq xs
    (r'.1, r.2.1 ++ r'.2)

/-- Concrete state used by the counterexample to the setSize claim: a
one-element queue with a size limit of 5 and no timer. -/
def setSizeZeroState : PythagoreanCache Nat :=
  { queue := [7], opts := ⟨some 5, none⟩, timerActive := false }

section Helpers

variable {T : Type}

/-- `checkLimit` holds exactly when a positive size limit is stored and the
queue has reached it. -/
theorem PythagoreanCache.checkLimit_spec (c : PythagoreanCache T) :
    c.checkLimit = true ↔ ∃ s, c.opts.size = some s ∧ 0 < s ∧ s ≤ c.queue.length := by
  unfold PythagoreanCache.checkLimit PythagoreanCache.length
  cases hs : c.opts.size with
  | none => simp
  | some s =>
    by_cases h0 : s = 0
    · subst h0; simp
    · simp only [beq_iff_eq, h0, if_false, decide_eq_true_eq, Option.some.injEq]
      constructor
      · intro h; exact ⟨s, rfl, Nat.pos_of_ne_zero h0, h⟩
      · rintro ⟨t, ht, hpos, hle⟩; omega


/-- A state whose `checkLimit` holds has a non-empty queue. -/
theorem PythagoreanCache.queue_ne_nil_of_checkLimit (c : PythagoreanCache T)
    (h : c.checkLimit = true) : c.queue ≠ [] := by
  obtain ⟨s, _, hpos, hle⟩ := (PythagoreanCache.checkLimit_spec c).mp h
  intro hnil
  rw [hnil] at hle
  simp at hle
  omega

/-- On an empty queue, `dump` changes nothing and emits nothing. -/
theorem PythagoreanCache.dump_eq_of_nil (c : PythagoreanCache T)
    (h : c.queue = []) : c.dump = (c, []) := by
  unfold PythagoreanCache.dump PythagoreanCache.dumpWith
  simp [PythagoreanCache.length, h]

/-- On a non-empty queue, `dump` removes the first `dumpCount` items and emits
them as the one batch of the call. -/
theorem PythagoreanCache.dump_eq_of_ne_nil (c : PythagoreanCache T)
    (h : c.queue ≠ []) :
    c.dump = ({ c with queue := c.queue.drop c.dumpCount },
              [c.queue.take c.dumpCount]) := by
  unfold PythagoreanCache.dump PythagoreanCache.dumpWith
  simp [PythagoreanCache.length, List.length_pos.mpr h]

end Helpers

section Claims

variable {T : Type}

/-- Claim C3: calling `dump` when the queue is empty is a no-op — no observer
is notified (no batch is emitted) and the cache state is unchanged. -/
theorem C3_dump_empty_noop (c : PythagoreanCache T) (h : c.queue = []) :
    c.dump = (c, []) :=
  PythagoreanCache.dump_eq_of_nil c h

/-- Witness for C3 at a concrete empty cache. -/
theorem C3_witness :
    ({ queue := [], opts := ⟨some 3, none⟩, timerActive := true } :
      PythagoreanCache Nat).dump =
    ({ queue := [], opts := ⟨some 3, none⟩, timerActive := true }, []) :=
  C3_dump_empty_noop _ rfl

/-- Claim C9: calling `stopInterval` when no timer is active is a safe no-op:
it is total (raises no error), arms no timer, and leaves the whole state —
queue and configuration included — unchanged. -/
theorem C9_stopInterval_inactive_noop (c : PythagoreanCache T)
    (h : c.timerActive = false) : c.stopInterval = c := by
  unfold PythagoreanCache.stopInterval
  cases c
  simp_all

/-- Witness for C9 at a concrete cache with no active timer. -/
theorem C9_witness :
    ({ queue := [4, 5], opts := ⟨none, some 7⟩, timerActive := false } :
      PythagoreanCache Nat).stopInterval =
    { queue := [4, 5], opts := ⟨none, some 7⟩, timerActive := false } :=
  C9_stopInterval_inactive_noop _ rfl

/-- Claim C7: `checkLimit` is true iff a size limit is configured (a positive
threshold is stored, matching the spec's "optional positive integer
threshold") and the queue length has reached it; it is false whenever no size
limit is configured.  As embedded, `checkLimit` is a pure function of the
state, so it cannot mutate the cache. -/
theorem C7_checkLimit_iff (c : PythagoreanCache T) :
    (c.checkLimit = true ↔
      ∃ s, c.opts.size = some s ∧ 0 < s ∧ s ≤ c.queue.length) ∧
    (c.opts.size = none → c.checkLimit = false) := by
  refine ⟨PythagoreanCache.checkLimit_spec c, fun hnone => ?_⟩
  unfold PythagoreanCache.checkLimit
  rw [hnone]

/-- Claim C2: one `dump` on a non-empty queue removes from the front exactly
`min (sizeLimit, length)` items when a (positive) size limit is configured,
or the entire queue when none is configured; the emitted batch is exactly the
removed front segment in insertion order, and the items beyond it remain
queued in their original order (`take` ++ `drop` reassembles the queue). -/
theorem C2_dump_extracts_bounded_batch (c : PythagoreanCache T)
    (h : c.queue ≠ []) :
    (∀ s, c.opts.size = some s → 0 < s →
      c.dump.2 = [c.queue.take s] ∧
      (c.queue.take s).length = min s c.queue.length ∧
      c.dump.1.queue = c.queue.drop s ∧
      c.queue.take s ++ c.queue.drop s = c.queue) ∧
    (c.opts.size = none → c.dump.2 = [c.queue] ∧ c.dump.1.queue = []) := by
  rw [PythagoreanCache.dump_eq_of_ne_nil c h]
  constructor
  · intro s hs hpos
    have hcount : c.dumpCount = s := by
      unfold PythagoreanCache.dumpCount
      rw [hs]
      simp [Nat.pos_iff_ne_zero.mp hpos]
    rw [hcount]
    exact ⟨rfl, List.length_take s c.queue, rfl, List.take_append_drop s c.queue⟩
  · intro hnone
    have hcount : c.dumpCount = c.queue.length := by
      unfold PythagoreanCache.dumpCount PythagoreanCache.length
      rw [hnone]
    rw [hcount]
    simp

/-- Witness for C2 at a concrete cache: size limit 2, three queued items. -/
theorem C2_witness :
    (∀ s, (⟨[1, 2, 3], ⟨some 2, none⟩, false⟩ :
        PythagoreanCache Nat).opts.size = some s → 0 < s →
      (⟨[1, 2, 3], ⟨some 2, none⟩, false⟩ :
        PythagoreanCache Nat).dump.2 = [([1, 2, 3] : List Nat).take s] ∧
      (([1, 2, 3] : List Nat).take s).length = min s ([1, 2, 3] : List Nat).length ∧
      (⟨[1, 2, 3], ⟨some 2, none⟩, false⟩ :
        PythagoreanCache Nat).dump.1.queue = ([1, 2, 3] : List Nat).drop s ∧
      ([1, 2, 3] : List Nat).take s ++ ([1, 2, 3] : List Nat).drop s = [1, 2, 3]) ∧
    ((⟨[1, 2, 3], ⟨some 2, none⟩, false⟩ :
        PythagoreanCache Nat).opts.size = none →
      (⟨[1, 2, 3], ⟨some 2, none⟩, false⟩ :
        PythagoreanCache Nat).dump.2 = [[1, 2, 3]] ∧
      (⟨[1, 2, 3], ⟨some 2, none⟩, false⟩ :
        PythagoreanCache Nat).dump.1.queue = []) :=
  C2_dump_extracts_bounded_batch _ (by decide)

/-- Claim C10: a configured size of `0` behaves as if no size limit were
configured: `checkLimit` is false whatever the queue holds, a dump drains the
entire queue (the final queue is empty, and a non-empty queue is emitted
whole as the one batch), and the configuration `{size: 0}` with no interval
fails construction. -/
theorem C10_size_zero_behaves_unset (c : PythagoreanCache T)
    (h : c.opts.size = some 0) :
    c.checkLimit = false ∧
    c.dump.1.queue = [] ∧
    (c.queue ≠ [] → c.dump.2 = [c.queue]) ∧
    PythagoreanCache.construct T ⟨some 0, none⟩ = Except.error configErrorMsg := by
  have hcl : c.checkLimit = false := by
    unfold PythagoreanCache.checkLimit
    rw [h]
    simp
  have hcount : c.queue ≠ [] → c.dumpCount = c.queue.length := fun _ => by
    unfold PythagoreanCache.dumpCount PythagoreanCache.length
    rw [h]
    simp
  refine ⟨hcl, ?_, ?_, rfl⟩
  · by_cases hq : c.queue = []
    · rw [PythagoreanCache.dump_eq_of_nil c hq]
      exact hq
    · rw [PythagoreanCache.dump_eq_of_ne_nil c hq, hcount hq]
      simp
  · intro hq
    rw [PythagoreanCache.dump_eq_of_ne_nil c hq, hcount hq]
    simp

end Claims

/-- Witness for C10 at a concrete cache whose stored size is `0`. -/
theorem C10_witness :
    (⟨[8, 9], ⟨some 0, none⟩, false⟩ : PythagoreanCache Nat).checkLimit = false ∧
    (⟨[8, 9], ⟨some 0, none⟩, false⟩ : PythagoreanCache Nat).dump.1.queue = [] ∧
    ((⟨[8, 9], ⟨some 0, none⟩, false⟩ : PythagoreanCache Nat).queue ≠ [] →
      (⟨[8, 9], ⟨some 0, none⟩, false⟩ : PythagoreanCache Nat).dump.2 = [[8, 9]]) ∧
    PythagoreanCache.construct Nat ⟨some 0, none⟩ = Except.error configErrorMsg :=
  C10_size_zero_behaves_unset _ rfl

/-- Claim C4, counterexample: the claim says construction with either option
set alone succeeds, but `{interval: 0}` (interval present and defined, size
absent) is rejected by the constructor, because `0` is falsy. -/
theorem C4_counterexample :
    PythagoreanCache.construct Nat ⟨none, some 0⟩ = Except.error configErrorMsg :=
  rfl

/-- Claim C4 as amended: construction fails with the configuration error
exactly when both `size` and `interval` are absent or zero (a value of `0`
counts as unset, by JavaScript truthiness); whenever at least one of them is
a nonzero value, construction succeeds and returns an instance. -/
theorem C4_construct_error_iff (T : Type) (opts : PythagoreanCacheOpts) :
    (PythagoreanCache.construct T opts = Except.error configErrorMsg ↔
      ((opts.size = none ∨ opts.size = some 0) ∧
       (opts.interval = none ∨ opts.interval = some 0))) ∧
    (¬((opts.size = none ∨ opts.size = some 0) ∧
       (opts.interval = none ∨ opts.interval = some 0)) →
      ∃ c, PythagoreanCache.construct T opts = Except.ok c) := by
  have hdeg : (!optTruthy opts.size && !optTruthy opts.interval) = true ↔
      ((opts.size = none ∨ opts.size = some 0) ∧
       (opts.interval = none ∨ opts.interval = some 0)) := by
    unfold optTruthy
    cases opts.size with
    | none => cases opts.interval with
      | none => simp
      | some m => simp
    | some n => cases opts.interval with
      | none => simp
      | some m => simp
  constructor
  · unfold PythagoreanCache.construct
    by_cases hc : (!optTruthy opts.size && !optTruthy opts.interval) = true
    · rw [if_pos hc]
      simp [hdeg.mp hc]
    · rw [if_neg hc]
      constructor
      · intro h; exact absurd h (by simp)
      · intro h; exact absurd (hdeg.mpr h) hc
  · intro h
    unfold PythagoreanCache.construct
    rw [if_neg (fun hc => h (hdeg.mp hc))]
    exact ⟨_, rfl⟩

/-- Claim C6, counterexample: `setSize 0` on a non-empty one-element queue,
with `0 ≤ length`, triggers no dump at all (the stored size `0` is falsy, so
`checkLimit` stays false), although the claim promises an immediate dump. -/
theorem C6_counterexample :
    0 ≤ setSizeZeroState.queue.length ∧ setSizeZeroState.queue ≠ [] ∧
    (setSizeZeroState.setSize 0).2 = [] := by decide

/-- Claim C6 as amended: calling `setSize` with a positive value `n` at most
the current queue length immediately triggers exactly one dump whose batch is
the first `n` items of the queue — in particular bounded by the new size
limit — leaving the remaining items queued. -/
theorem C6_setSize_positive_triggers_dump (c : PythagoreanCache T) (n : Nat)
    (hn : 0 < n) (hle : n ≤ c.queue.length) :
    (c.setSize n).2 = [c.queue.take n] ∧
    (c.queue.take n).length ≤ n ∧
    (c.setSize n).1.queue = c.queue.drop n := by
  unfold PythagoreanCache.setSize
  have hq : c.queue ≠ [] := by
    intro hnil
    rw [hnil] at hle
    simp at hle
    omega
  have hcl : ({ c with opts := { c.opts with size := some n } } :
      PythagoreanCache T).checkLimit = true := by
    rw [PythagoreanCache.checkLimit_spec]
    exact ⟨n, rfl, hn, hle⟩
  rw [if_pos hcl
    , PythagoreanCache.dump_eq_of_ne_nil _ (by simpa using hq)]
  have hcount : ({ c with opts := { c.opts with size := some n } } :
      PythagoreanCache T).dumpCount = n := by
    unfold PythagoreanCache.dumpCount
    simp [Nat.pos_iff_ne_zero.mp hn]
  rw [hcount]
  exact ⟨rfl, by simp, rfl⟩

/-- Witness for the amended C6 at a concrete cache: queue of three items,
new size 2. -/
theorem C6_witness :
    ((⟨[1, 2, 3], ⟨some 9, none⟩, false⟩ : PythagoreanCache Nat).setSize 2).2 =
      [([1, 2, 3] : List Nat).take 2] ∧
    (([1, 2, 3] : List Nat).take 2).length ≤ 2 ∧
    ((⟨[1, 2, 3], ⟨some 9, none⟩, false⟩ : PythagoreanCache Nat).setSize 2).1.queue =
      ([1, 2, 3] : List Nat).drop 2 :=
  C6_setSize_positive_triggers_dump _ 2 (by decide) (by decide)

/-- Claim C8: in every dump that notifies observers, the extraction completes
before any observer callback runs.  Stated over `dumpWith`, where the observer
receives the batch together with the queue as it stands at the moment of the
notification: that queue already equals the final post-extraction queue (so
the dumped items are no longer present — batch and observed queue partition
the original queue), and the cache state no longer depends on what the
observer does, so an observer error cannot leave the queue partially
extracted. -/
theorem C8_extraction_precedes_observers (A : Type)
    (c : PythagoreanCache T) (h : c.queue ≠ [])
    (obs : List T → List T → A → A) (a : A) :
    c.dumpWith obs a =
      ({ c with queue := c.queue.drop c.dumpCount },
       obs (c.queue.take c.dumpCount) (c.queue.drop c.dumpCount) a) ∧
    c.queue.take c.dumpCount ++ c.queue.drop c.dumpCount = c.queue := by
  unfold PythagoreanCache.dumpWith
  rw [if_pos (by simpa [PythagoreanCache.length, List.length_pos] using h)]
  exact ⟨rfl, List.take_append_drop _ _⟩

/-- Witness for C8 at a concrete cache and a concrete observer that records
the batch and the queue it sees. -/
theorem C8_witness :
    (⟨[1, 2, 3], ⟨some 2, none⟩, false⟩ : PythagoreanCache Nat).dumpWith
        (fun b q a => a ++ [(b, q)]) ([] : List (List Nat × List Nat)) =
      ({ (⟨[1, 2, 3], ⟨some 2, none⟩, false⟩ : PythagoreanCache Nat) with
          queue := ([1, 2, 3] : List Nat).drop
            (⟨[1, 2, 3], ⟨some 2, none⟩, false⟩ :
              PythagoreanCache Nat).dumpCount },
       ([] : List (List Nat × List Nat)) ++
         [(([1, 2, 3] : List Nat).take
             (⟨[1, 2, 3], ⟨some 2, none⟩, false⟩ :
               PythagoreanCache Nat).dumpCount,
           ([1, 2, 3] : List Nat).drop
             (⟨[1, 2, 3], ⟨some 2, none⟩, false⟩ :
               PythagoreanCache Nat).dumpCount)]) ∧
    ([1, 2, 3] : List Nat).take
        (⟨[1, 2, 3], ⟨some 2, none⟩, false⟩ : PythagoreanCache Nat).dumpCount ++
      ([1, 2, 3] : List Nat).drop
        (⟨[1, 2, 3], ⟨some 2, none⟩, false⟩ : PythagoreanCache Nat).dumpCount =
      [1, 2, 3] :=
  C8_extraction_precedes_observers (List (List Nat × List Nat)) _ (by decide) _ _

/-- Claim C5: `push` returns the queue length measured after the items were
appended and after any dump the call itself triggered: the returned number is
the final state's length, and it equals the length of the appended queue with
the dump's splice applied exactly when the size trigger fired. -/
theorem C5_push_returns_post_dump_length (c : PythagoreanCache T)
    (items : List T) :
    (c.push items).2.2 = (c.push items).1.queue.length ∧
    (c.push items).2.2 =
      (if ({ c with queue := c.queue ++ items } : PythagoreanCache T).checkLimit
        then (c.queue ++ items).drop
          (({ c with queue := c.queue ++ items } : PythagoreanCache T).dumpCount)
        else c.queue ++ items).length := by
  unfold PythagoreanCache.push
  by_cases hcl : ({ c with queue := c.queue ++ items } :
      PythagoreanCache T).checkLimit = true
  · have hq := PythagoreanCache.queue_ne_nil_of_checkLimit _ hcl
    rw [if_pos hcl, if_pos hcl, PythagoreanCache.dump_eq_of_ne_nil _ hq]
    exact ⟨rfl, rfl⟩
  · rw [if_neg hcl, if_neg hcl]
    exact ⟨rfl, rfl⟩

/-- Filling lemma: pushing items one at a time into a cache whose stored size
is `N > 0`, starting from a queue that the items will grow to exactly length
`N`, emits exactly one batch — the whole queue, old items then new, in push
order — at the final push, and leaves the queue empty. -/
theorem PythagoreanCache.pushSeq_fill {T : Type} (N : Nat) (hN : 0 < N) :
    ∀ (l : List T) (c : PythagoreanCache T), l ≠ [] →
      c.opts.size = some N → c.queue.length + l.length = N →
      c.pushSeq l = ({ c with queue := [] }, [c.queue ++ l]) := by
  intro l
  induction l with
  | nil => intro c hne; exact absurd rfl hne
  | cons x xs ih =>
    intro c _ hsize hlen
    have hq1 : (c.queue ++ [x]).length = c.queue.length + 1 := by simp
    cases hxs : xs with
    | nil =>
      subst hxs
      have hfull : (c.queue ++ [x]).length = N := by
        rw [hq1]
        simpa using hlen
      have hcl : ({ c with queue := c.queue ++ [x] } :
          PythagoreanCache T).checkLimit = true := by
        rw [PythagoreanCache.checkLimit_spec]
        exact ⟨N, hsize, hN, le_of_eq hfull.symm⟩
      have hcount : ({ c with queue := c.queue ++ [x] } :
          PythagoreanCache T).dumpCount = N := by
        unfold PythagoreanCache.dumpCount
        simp [hsize, Nat.pos_iff_ne_zero.mp hN]
      simp only [PythagoreanCache.pushSeq, PythagoreanCache.push]
      rw [if_pos hcl, PythagoreanCache.dump_eq_of_ne_nil _ (by simp), hcount]
      simp [List.take_of_length_le (le_of_eq hfull), List.drop_eq_nil_of_le (le_of_eq hfull)]
    | cons y ys =>
      have hxs' : xs ≠ [] := by rw [hxs]; exact List.cons_ne_nil y ys
      rw [← hxs]
      have hlt : (c.queue ++ [x]).length < N := by
        rw [hq1]
        have : 0 < xs.length := by rw [hxs]; simp
        simp only [List.length_cons] at hlen
        omega
      have hcl : ({ c with queue := c.queue ++ [x] } :
          PythagoreanCache T).checkLimit = false := by
        rw [Bool.eq_false_iff]
        intro h
        obtain ⟨s, hs, hpos, hle⟩ := (PythagoreanCache.checkLimit_spec _).mp h
        simp only [hsize, Option.some.injEq] at hs
        subst hs
        exact absurd hle (not_le_of_lt hlt)
      simp only [PythagoreanCache.pushSeq, PythagoreanCache.push]
      rw [if_neg (by rw [hcl]; exact Bool.false_ne_true)]
      have hrec := ih { c with queue := c.queue ++ [x] } hxs' hsize
        (by simp only [List.length_cons] at hlen; simp; omega)
      rw [hrec]
      simp

/-- Claim C1: for every positive `N` and every list of `N` items pushed one at
a time into a cache constructed with `size = N` (and no interval), exactly one
dump fires, its batch is exactly those `N` items in push order, and the length
is `0` immediately after. -/
theorem C1_fill_to_size_dumps_once (T : Type) (N : Nat) (l : List T)
    (hN : 0 < N) (hl : l.length = N) :
    ∃ c0 : PythagoreanCache T,
      PythagoreanCache.construct T ⟨some N, none⟩ = Except.ok c0 ∧
      (c0.pushSeq l).2 = [l] ∧
      (c0.pushSeq l).1.length = 0 := by
  refine ⟨{ queue := [], opts := ⟨some N, none⟩, timerActive := false }, ?_, ?_, ?_⟩
  · simp [PythagoreanCache.construct, PythagoreanCache.startInterval,
      PythagoreanCache.stopInterval, optTruthy, Nat.pos_iff_ne_zero.mp hN]
  · rw [PythagoreanCache.pushSeq_fill N hN l _
      (by intro h; rw [h] at hl; simp at hl; omega) rfl (by simpa using hl)]
    simp
  · rw [PythagoreanCache.pushSeq_fill N hN l _
      (by intro h; rw [h] at hl; simp at hl; omega) rfl (by simpa using hl)]
    rfl

/-- Witness for C1: size 2, pushing the two items 5 and 6. -/
theorem C1_witness :
    ∃ c0 : PythagoreanCache Nat,
      PythagoreanCache.construct Nat ⟨some 2, none⟩ = Except.ok c0 ∧
      (c0.pushSeq [5, 6]).2 = [[5, 6]] ∧
      (c0.pushSeq [5, 6]).1.length = 0 :=
  C1_fill_to_size_dumps_once Nat 2 [5, 6] (by decide) (by decide)
